import Mathlib

/-!
Shallow embedding of the todo-app task data-access and business-rule core
(Go source: `app/models`, `app/repository/postgres_repository.go`,
`app/services` (TaskServiceImpl), `app/usecases` (TaskUseCaseImpl,
AnalyticsUseCaseImpl), `internal/validation`, and the desktop-shell
bindings in `app.go`).

Modelling conventions:
* `time.Time` timestamps are integers (seconds since epoch, UTC); the SQL
  `DATE(x)` truncation and `CURRENT_DATE` are modelled as floor division by
  86400; the Go `AddDate(0, 0, -1)` step is modelled as subtracting 86400 seconds.
* Go string-typed enums (`TaskStatus`, `Priority`, `DateFilter`, `SortField`,
  `SortOrder`) become inductives; a field that holds the empty string `""`
  in Go is modelled as an `Option` with `none` standing for `""`.
* The database table is a `List Task` of rows; each statement-level SQL
  operation of `postgresTaskRepository` is a pure function on that list.
  `time.Now()` is threaded as an explicit `now` parameter.
* Go errors are collapsed to the error taxonomy of the spec (`validationError`,
  `notFoundError`, `conflictError`) in `Except`; which constructor is used
  follows the message/type the Go code produces at that point.
-/

namespace TodoApp

/-- `models.TaskStatus`: enum {active, completed} (`task.go`). -/
inductive TaskStatus
  | active
  | completed
deriving DecidableEq

/-- `models.Priority`: enum {low, medium, high} (`task.go`). -/
inductive Priority
  | low
  | medium
  | high
deriving DecidableEq

/-- `models.DateFilter`: enum {all, today, week, overdue}. -/
inductive DateFilter
  | all
  | today
  | week
  | overdue
deriving DecidableEq

/-- `models.SortField`: enum {created_at, updated_at, priority, due_date, title, status}. -/
inductive SortField
  | createdAt
  | updatedAt
  | priority
  | dueDate
  | title
  | status
deriving DecidableEq

/-- `models.SortOrder`: enum {asc, desc}. -/
inductive SortOrder
  | asc
  | desc
deriving DecidableEq

/-- `models.Task` (`task.go`): a row of the `tasks` table.
`DueDate` and `CompletedAt` are nullable (`*time.Time`). -/
structure Task where
  id : Int
  title : String
  description : String
  status : TaskStatus
  priority : Priority
  dueDate : Option Int
  archived : Bool
  createdAt : Int
  updatedAt : Int
  completedAt : Option Int
deriving DecidableEq

/-- `models.TaskFilter` (query-specification value object).
`none` in `status`/`priority`/`dateType` models the Go empty string. -/
structure TaskFilter where
  status : Option TaskStatus
  priority : Option Priority
  dateType : Option DateFilter
  search : String
  dueFrom : Option Int
  dueTo : Option Int
  archived : Bool
deriving DecidableEq

/-- `models.TaskSort`. `none` models the Go empty string. -/
structure TaskSort where
  field : Option SortField
  order : Option SortOrder
deriving DecidableEq

/-- `models.CreateTaskRequest` (`requests.go`); `priority = none` models the
empty string `""` in the Go `Priority` field. -/
structure CreateTaskRequest where
  title : String
  description : String
  priority : Option Priority
  dueDate : Option Int
deriving DecidableEq

/-- `models.UpdateTaskRequest` (`requests.go`). -/
structure UpdateTaskRequest where
  id : Int
  title : String
  description : String
  priority : Option Priority
  dueDate : Option Int
  archived : Bool
deriving DecidableEq

/-- `models.TaskStats` (`task.go`). -/
structure TaskStats where
  totalTasks : Int
  activeTasks : Int
  completedTasks : Int
  overdueTasks : Int
  todayTasks : Int
  weekTasks : Int
deriving DecidableEq

/-- `models.TaskResponse` (`responses.go`). -/
structure TaskResponse where
  id : Int
  title : String
  description : String
  status : TaskStatus
  priority : Priority
  dueDate : Option Int
  createdAt : Int
  updatedAt : Int
  completedAt : Option Int
  isOverdue : Bool
deriving DecidableEq

/-- `models.TaskListResponse` (`responses.go`). -/
structure TaskListResponse where
  tasks : List TaskResponse
  totalCount : Int
  filter : TaskFilter
  sort : TaskSort
deriving DecidableEq

/-- `models.DashboardStats` (`responses.go`); the two Go breakdown maps are
modelled as association lists in insertion order. -/
structure DashboardStats where
  taskStats : TaskStats
  priorityBreakdown : List (Priority × Int)
  statusBreakdown : List (TaskStatus × Int)
  recentTasks : List TaskResponse
  upcomingTasks : List TaskResponse
deriving DecidableEq

/-- Error taxonomy of the spec, standing for the Go error values produced by
the validation / service / use-case layers. -/
inductive UCError
  | validationError
  | notFoundError
  | conflictError
deriving DecidableEq

/-- Seconds in a day; used to model SQL `DATE()` truncation and Go
`AddDate(0, 0, -1)`. -/
def oneDay : Int := 86400

/-- Calendar-day of a timestamp, modelling SQL `DATE(x)` / `CURRENT_DATE`. -/
def dayOf (t : Int) : Int := t / oneDay

/-- Whether the first character list starts the second one. -/
def startsWithChars : List Char → List Char → Bool
  | [], _ => true
  | _ :: _, [] => false
  | a :: as, b :: bs => a == b && startsWithChars as bs

/-- Whether the first character list occurs contiguously in the second. -/
def hasSubChars (pat : List Char) : List Char → Bool
  | [] => pat.isEmpty
  | c :: cs => startsWithChars pat (c :: cs) || hasSubChars pat cs

/-- The ILIKE pattern `%pat%` of `buildWhereClause`: case-insensitive
substring match of the search text. -/
def likeMatch (pat text : String) : Bool :=
  hasSubChars pat.toLower.data text.toLower.data

/-- One SQL predicate fragment of the dynamically built WHERE clause
(`buildWhereClause` in `postgres_repository.go`). -/
inductive Cond
  | statusEq (s : TaskStatus)
  | priorityEq (p : Priority)
  | searchLike (pat : String)
  | dueToday
  | dueThisWeek
  | overdueCond
  | dueFromGe (d : Int)
  | dueToLe (d : Int)
deriving DecidableEq

/-- Truth value of one WHERE-clause predicate on a row, with SQL NULL
semantics: every comparison involving a NULL `due_date` is not satisfied. -/
def evalCond (now : Int) (t : Task) : Cond → Bool
  | .statusEq s => t.status == s
  | .priorityEq p => t.priority == p
  | .searchLike pat => likeMatch pat t.title || likeMatch pat t.description
  | .dueToday =>
      match t.dueDate with
      | some d => dayOf d == dayOf now
      | none => false
  | .dueThisWeek =>
      match t.dueDate with
      | some d => decide (now ≤ d) && decide (d ≤ now + 7 * oneDay)
      | none => false
  | .overdueCond =>
      t.status == TaskStatus.active &&
        (match t.dueDate with
         | some d => decide (d < now)
         | none => false)
  | .dueFromGe d =>
      match t.dueDate with
      | some dd => decide (d ≤ dd)
      | none => false
  | .dueToLe d =>
      match t.dueDate with
      | some dd => decide (dd ≤ d)
      | none => false

/-- Conditions contributed by the status filter (`if filter.Status != ""`). -/
def condsOfStatus : Option TaskStatus → List Cond
  | some s => [Cond.statusEq s]
  | none => []

/-- Conditions contributed by the priority filter (`if filter.Priority != ""`). -/
def condsOfPriority : Option Priority → List Cond
  | some p => [Cond.priorityEq p]
  | none => []

/-- Conditions contributed by the text search (`if filter.Search != ""`). -/
def condsOfSearch (s : String) : List Cond :=
  if s ≠ "" then [Cond.searchLike s] else []

/-- Conditions contributed by the date-filter switch; `all`, the empty
string, and any other value contribute nothing. -/
def condsOfDate : Option DateFilter → List Cond
  | some DateFilter.today => [Cond.dueToday]
  | some DateFilter.week => [Cond.dueThisWeek]
  | some DateFilter.overdue => [Cond.overdueCond]
  | _ => []

/-- Condition contributed by the lower due-date bound. -/
def condsOfFrom : Option Int → List Cond
  | some d => [Cond.dueFromGe d]
  | none => []

/-- Condition contributed by the upper due-date bound. -/
def condsOfTo : Option Int → List Cond
  | some d => [Cond.dueToLe d]
  | none => []

/-- `buildWhereClause` (`postgres_repository.go` 349-404): each non-empty
filter field appends one condition, in source order; the `archived` field is
never consulted. The returned list is joined by AND. -/
def buildWhereClause (f : TaskFilter) : List Cond :=
  condsOfStatus f.status ++ condsOfPriority f.priority ++ condsOfSearch f.search ++
    condsOfDate f.dateType ++ condsOfFrom f.dueFrom ++ condsOfTo f.dueTo

/-- A row satisfies the WHERE clause iff it satisfies every generated
condition (SQL AND). -/
def matchesWhere (now : Int) (f : TaskFilter) (t : Task) : Bool :=
  (buildWhereClause f).all (evalCond now t)

/-- The CASE expression of `buildOrderClause`:
high maps to key 1, medium to 2, low to 3. -/
def priorityCaseKey : Priority → Int
  | .high => 1
  | .medium => 2
  | .low => 3

/-- Wire string of a status, for the lexical `ORDER BY status`. -/
def statusStr : TaskStatus → String
  | .active => "active"
  | .completed => "completed"

/-- Ascending comparison for the ORDER BY key chosen by `buildOrderClause`
(`postgres_repository.go` 407-429). `created_at` and `updated_at` both fall
through to the default `created_at` column, as in the Go switch. NULL
`due_date` sorts last ascending (Postgres default). -/
def orderKeyLe (fld : Option SortField) (a b : Task) : Bool :=
  match fld with
  | some SortField.title => decide (a.title ≤ b.title)
  | some SortField.priority => decide (priorityCaseKey a.priority ≤ priorityCaseKey b.priority)
  | some SortField.dueDate =>
      match a.dueDate, b.dueDate with
      | none, _ => b.dueDate == none
      | some _, none => true
      | some x, some y => decide (x ≤ y)
  | some SortField.status => decide (statusStr a.status ≤ statusStr b.status)
  | _ => decide (a.createdAt ≤ b.createdAt)

/-- `buildOrderClause` as a binary comparison: direction is DESC unless the
requested order is exactly `asc`. -/
def buildOrderClause (s : TaskSort) (a b : Task) : Bool :=
  if s.order == some SortOrder.asc then orderKeyLe s.field a b
  else orderKeyLe s.field b a

/-- Insert into a sorted list (helper for the ORDER BY model). -/
def insertLe (le : Task → Task → Bool) (x : Task) : List Task → List Task
  | [] => [x]
  | y :: ys => if le x y then x :: y :: ys else y :: insertLe le x ys

/-- Stable insertion sort modelling the SQL ORDER BY of `GetAll`. -/
def sortTasks (le : Task → Task → Bool) : List Task → List Task
  | [] => []
  | x :: xs => insertLe le x (sortTasks le xs)

/-- `postgresTaskRepository.GetByID`: the row with the given id, or NULL. -/
def repoGetByID (id : Int) (db : List Task) : Option Task :=
  db.find? (fun t => t.id == id)

/-- `postgresTaskRepository.Create` (`postgres_repository.go` 26-51): INSERT
of title, description, status, priority, due_date, created_at, updated_at.
`completed_at` is not in the column list (row gets NULL) and `archived`
defaults to FALSE. The returned struct carries the assigned id and both
timestamps set to `now`. -/
def repoCreate (now newId : Int) (t : Task) (db : List Task) : List Task × Task :=
  let ret : Task := { t with id := newId, createdAt := now, updatedAt := now }
  let row : Task := { ret with archived := false, completedAt := none }
  (db ++ [row], ret)

/-- `postgresTaskRepository.Update` (`postgres_repository.go` 128-154):
`UPDATE tasks SET title, description, priority, due_date, updated_at WHERE
id = $1` — status, completed_at and archived are not written. `none` models
`sql.ErrNoRows` (id absent). -/
def repoUpdate (now : Int) (u : Task) (db : List Task) : Option (List Task × Task) :=
  if (db.find? (fun t => t.id == u.id)).isSome then
    some
      (db.map (fun t =>
        if t.id == u.id then
          { t with title := u.title, description := u.description,
                   priority := u.priority, dueDate := u.dueDate, updatedAt := now }
        else t),
       { u with updatedAt := now })
  else none

/-- `postgresTaskRepository.MarkAsCompleted`: sets status = completed,
completed_at = now, updated_at = now on the row; `none` if no row matched. -/
def repoMarkAsCompleted (now id : Int) (db : List Task) : Option (List Task) :=
  if (db.find? (fun t => t.id == id)).isSome then
    some (db.map (fun t =>
      if t.id == id then
        { t with status := TaskStatus.completed, completedAt := some now, updatedAt := now }
      else t))
  else none

/-- `postgresTaskRepository.MarkAsActive`: sets status = active,
completed_at = NULL, updated_at = now on the row; `none` if no row matched. -/
def repoMarkAsActive (now id : Int) (db : List Task) : Option (List Task) :=
  if (db.find? (fun t => t.id == id)).isSome then
    some (db.map (fun t =>
      if t.id == id then
        { t with status := TaskStatus.active, completedAt := none, updatedAt := now }
      else t))
  else none

/-- `postgresTaskRepository.GetAll`: WHERE clause then ORDER BY. -/
def repoGetAll (now : Int) (f : TaskFilter) (s : TaskSort) (db : List Task) : List Task :=
  sortTasks (buildOrderClause s) (db.filter (matchesWhere now f))

/-- `postgresTaskRepository.GetTasksCount`: `SELECT COUNT(*)` under the same
WHERE clause. -/
def repoGetTasksCount (now : Int) (f : TaskFilter) (db : List Task) : Int :=
  ((db.filter (matchesWhere now f)).length : Int)

/-- `postgresTaskRepository.GetTasksStats`: the single aggregate query. -/
def repoGetTasksStats (now : Int) (db : List Task) : TaskStats :=
  { totalTasks := (db.length : Int)
    activeTasks := ((db.countP (fun t => t.status == TaskStatus.active)) : Int)
    completedTasks := ((db.countP (fun t => t.status == TaskStatus.completed)) : Int)
    overdueTasks := ((db.countP (fun t =>
      t.status == TaskStatus.active &&
        (match t.dueDate with
         | some d => decide (d < now)
         | none => false))) : Int)
    todayTasks := ((db.countP (fun t =>
      t.status == TaskStatus.active &&
        (match t.dueDate with
         | some d => dayOf d == dayOf now
         | none => false))) : Int)
    weekTasks := ((db.countP (fun t =>
      t.status == TaskStatus.active &&
        (match t.dueDate with
         | some d => decide (now ≤ d) && decide (d ≤ now + 7 * oneDay)
         | none => false))) : Int) }

/-- `postgresTaskRepository.GetRecentTasks`: ORDER BY created_at DESC LIMIT n. -/
def repoGetRecentTasks (limit : Int) (db : List Task) : List Task :=
  (sortTasks (fun a b => decide (b.createdAt ≤ a.createdAt)) db).take limit.toNat

/-- `postgresTaskRepository.GetUpcomingTasks`: active tasks with a present or
future due date, ORDER BY due_date ASC LIMIT n. -/
def repoGetUpcomingTasks (now limit : Int) (db : List Task) : List Task :=
  (sortTasks
      (fun a b => (a.dueDate.getD 0) ≤ (b.dueDate.getD 0))
      (db.filter (fun t =>
        t.status == TaskStatus.active &&
          (match t.dueDate with
           | some d => decide (now ≤ d)
           | none => false)))).take limit.toNat

/-! ### Validation layer (`internal/validation/task_validator.go`) -/

/-- Go `time.Before` on an optional due date against a cutoff: true iff a
date is present and strictly earlier than the cutoff (a `nil` date passes). -/
def dueBefore (cutoff : Int) : Option Int → Bool
  | some d => decide (d < cutoff)
  | none => false

/-- Struct-tag validation of `CreateTaskRequest`
(`validate:"required,min=1,max=255"` on Title, `max=1000` on Description,
`oneof=low medium high` on Priority). The `oneof` tag has no `omitempty`,
so the empty string (modelled `none`) fails it. -/
def structValidCreate (r : CreateTaskRequest) : Bool :=
  r.title ≠ "" && decide (1 ≤ r.title.length) && decide (r.title.length ≤ 255) &&
    decide (r.description.length ≤ 1000) && r.priority.isSome

/-- Struct-tag validation of `UpdateTaskRequest`: same field tags plus
`required,gt=0` on ID. -/
def structValidUpdate (r : UpdateTaskRequest) : Bool :=
  decide (0 < r.id) && r.title ≠ "" && decide (1 ≤ r.title.length) &&
    decide (r.title.length ≤ 255) && decide (r.description.length ≤ 1000) &&
    r.priority.isSome

/-- `TaskValidator.ValidateCreateTaskRequest`: struct tags, then the extra
check rejecting any due date strictly before `time.Now()`. -/
def validateCreateTaskRequest (now : Int) (r : CreateTaskRequest) : Bool :=
  structValidCreate r && !(dueBefore now r.dueDate)

/-- `TaskValidator.ValidateUpdateTaskRequest`: struct tags, then the extra
check rejecting any due date strictly before `time.Now()`. -/
def validateUpdateTaskRequest (now : Int) (r : UpdateTaskRequest) : Bool :=
  structValidUpdate r && !(dueBefore now r.dueDate)

/-- `TaskValidator.ValidateTaskFilter`. The status/priority checks are
vacuous (`IsValidStatus`/`IsValidPriority` also accept the empty string);
`IsValidDateFilter` does NOT accept the empty string, so `dateType` must be
one of the four enum values; a present range must satisfy from ≤ to. -/
def validateTaskFilter (f : TaskFilter) : Bool :=
  f.dateType.isSome &&
    (match f.dueFrom, f.dueTo with
     | some a, some b => decide (a ≤ b)
     | _, _ => true)

/-- `TaskValidator.ValidateTaskSort`: field and order must be members of
their enums (the empty string is not). -/
def validateTaskSort (s : TaskSort) : Bool :=
  s.field.isSome && s.order.isSome

/-- `TaskValidator.ValidateID`: positive id. -/
def validateID (id : Int) : Bool :=
  decide (0 < id)

/-! ### Service layer (`TaskServiceImpl`, `app/services`) -/

/-- `TaskServiceImpl.CreateTask`: validate, build the task with status
`active`, both timestamps `now` and a nil `completed_at`; substitute
`medium` when the priority is the empty string; then `repo.Create`. -/
def serviceCreateTask (now newId : Int) (req : CreateTaskRequest) (db : List Task) :
    Except UCError (List Task × Task) :=
  if !(validateCreateTaskRequest now req) then .error .validationError
  else
    let task : Task :=
      { id := 0, title := req.title, description := req.description,
        status := TaskStatus.active, priority := req.priority.getD Priority.medium,
        dueDate := req.dueDate, archived := false,
        createdAt := now, updatedAt := now, completedAt := none }
    .ok (repoCreate now newId task db)

/-- `TaskServiceImpl.GetTaskByID`: validate the id, then `repo.GetByID`. -/
def serviceGetTaskByID (id : Int) (db : List Task) : Except UCError Task :=
  if !(validateID id) then .error .validationError
  else
    match repoGetByID id db with
    | some t => .ok t
    | none => .error .notFoundError

/-- `TaskServiceImpl.UpdateTask`: validate, fetch the existing row, copy
title/description/priority/due_date onto it (status, completed_at and
archived are untouched), stamp updated_at, then `repo.Update`. The
`.getD Priority.medium` default is unreachable: validation has already
required the priority to be non-empty. -/
def serviceUpdateTask (now : Int) (req : UpdateTaskRequest) (db : List Task) :
    Except UCError (List Task × Task) :=
  if !(validateUpdateTaskRequest now req) then .error .validationError
  else
    match repoGetByID req.id db with
    | none => .error .notFoundError
    | some existing =>
      let updated : Task :=
        { existing with title := req.title, description := req.description,
                        priority := req.priority.getD Priority.medium,
                        dueDate := req.dueDate, updatedAt := now }
      match repoUpdate now updated db with
      | some r => .ok r
      | none => .error .notFoundError

/-- `TaskServiceImpl.DeleteTask`: validate id, require existence, delete. -/
def serviceDeleteTask (id : Int) (db : List Task) : Except UCError (List Task) :=
  if !(validateID id) then .error .validationError
  else
    match repoGetByID id db with
    | none => .error .notFoundError
    | some _ => .ok (db.filter (fun t => !(t.id == id)))

/-- `TaskServiceImpl.ToggleTaskStatus`: fetch the task; if active, mark
completed, else mark active; then re-fetch and return the stored row. -/
def serviceToggleTaskStatus (now id : Int) (db : List Task) :
    Except UCError (List Task × Task) :=
  if !(validateID id) then .error .validationError
  else
    match repoGetByID id db with
    | none => .error .notFoundError
    | some t =>
      let next :=
        if t.status == TaskStatus.active then repoMarkAsCompleted now id db
        else repoMarkAsActive now id db
      match next with
      | none => .error .notFoundError
      | some db' =>
        match repoGetByID id db' with
        | some t' => .ok (db', t')
        | none => .error .notFoundError

/-- `TaskServiceImpl.GetAllTasks`: validate filter and sort, then
`repo.GetAll`. -/
def serviceGetAllTasks (now : Int) (f : TaskFilter) (s : TaskSort) (db : List Task) :
    Except UCError (List Task) :=
  if !(validateTaskFilter f) then .error .validationError
  else if !(validateTaskSort s) then .error .validationError
  else .ok (repoGetAll now f s db)

/-- `is_overdue` computation shared by the response conversions: due date
present, status active, and due date strictly before now. -/
def toResponse (now : Int) (t : Task) : TaskResponse :=
  { id := t.id, title := t.title, description := t.description,
    status := t.status, priority := t.priority, dueDate := t.dueDate,
    createdAt := t.createdAt, updatedAt := t.updatedAt, completedAt := t.completedAt,
    isOverdue :=
      (match t.dueDate with
       | some d => decide (d < now)
       | none => false) && t.status == TaskStatus.active }

/-- `TaskServiceImpl.GetDashboardStats` (`part_007` 194-282): fetches the
aggregate stats, the 5 most recent and 5 upcoming tasks, and builds the
priority/status breakdown maps. The Go code inserts every enum key with
value 0 and never increments any of them from task data. -/
def serviceGetDashboardStats (now : Int) (db : List Task) : DashboardStats :=
  { taskStats := repoGetTasksStats now db
    priorityBreakdown :=
      [(Priority.low, 0), (Priority.medium, 0), (Priority.high, 0)]
    statusBreakdown :=
      [(TaskStatus.active, 0), (TaskStatus.completed, 0)]
    recentTasks := (repoGetRecentTasks 5 db).map (toResponse now)
    upcomingTasks := (repoGetUpcomingTasks now 5 db).map (toResponse now) }

/-! ### Use-case layer (`TaskUseCaseImpl`, `app/usecases`) -/

/-- `TaskUseCaseImpl.CreateTask`: validator, then the business rule
rejecting a due date earlier than `now.AddDate(0,0,-1)` (one day ago), then
the empty-priority substitution, then the service layer. -/
def ucCreateTask (now newId : Int) (req : CreateTaskRequest) (db : List Task) :
    Except UCError (List Task × Task) :=
  if !(validateCreateTaskRequest now req) then .error .validationError
  else if dueBefore (now - oneDay) req.dueDate then .error .validationError
  else
    let req' := if req.priority.isNone then { req with priority := some Priority.medium } else req
    serviceCreateTask now newId req' db

/-- `TaskUseCaseImpl.GetTaskByID`: validate id, then the service. -/
def ucGetTaskByID (id : Int) (db : List Task) : Except UCError Task :=
  if !(validateID id) then .error .validationError
  else serviceGetTaskByID id db

/-- `TaskUseCaseImpl.UpdateTask`: validator; existence via the service
(`NotFound` otherwise); the one-day due-date rule; the completed-task
business rule rejecting a changed title or priority with a Conflict error
before any storage call; then the service layer. -/
def ucUpdateTask (now : Int) (req : UpdateTaskRequest) (db : List Task) :
    Except UCError (List Task × Task) :=
  if !(validateUpdateTaskRequest now req) then .error .validationError
  else
    match serviceGetTaskByID req.id db with
    | .error _ => .error .notFoundError
    | .ok existing =>
      if dueBefore (now - oneDay) req.dueDate then .error .validationError
      else if existing.status == TaskStatus.completed &&
          (req.title != existing.title || req.priority != some existing.priority) then
        .error .conflictError
      else serviceUpdateTask now req db

/-- `TaskUseCaseImpl.ToggleTaskStatus`: validate id, fetch, then the
service toggle. -/
def ucToggleTaskStatus (now id : Int) (db : List Task) :
    Except UCError (List Task × Task) :=
  if !(validateID id) then .error .validationError
  else
    match serviceGetTaskByID id db with
    | .error e => .error e
    | .ok _ => serviceToggleTaskStatus now id db

/-- `TaskUseCaseImpl.GetTasksWithPagination` (`responses.go` 606-680):
clamp page to ≥ 1 and limit to [1,100] (default 20), validate filter and
sort, fetch the full filtered/sorted list, slice
`[(page-1)*limit, page*limit)` (empty page with the true total when the
start is past the end), and convert the slice to responses. -/
def ucGetTasksWithPagination (now : Int) (f : TaskFilter) (s : TaskSort)
    (page limit : Int) (db : List Task) : Except UCError TaskListResponse :=
  let page := if page < 1 then 1 else page
  let limit := if limit < 1 || limit > 100 then 20 else limit
  if !(validateTaskFilter f) then .error .validationError
  else if !(validateTaskSort s) then .error .validationError
  else
    let allTasks := repoGetAll now f s db
    let totalCount : Int := (allTasks.length : Int)
    let start := (page - 1) * limit
    let stop := start + limit
    if start ≥ totalCount then
      .ok { tasks := [], totalCount := totalCount, filter := f, sort := s }
    else
      let stop := if stop > totalCount then totalCount else stop
      .ok { tasks := ((allTasks.take stop.toNat).drop start.toNat).map (toResponse now),
            totalCount := totalCount, filter := f, sort := s }

/-! ### Desktop-shell bindings (`app.go`) -/

/-- `App.ArchiveTask` (`app.go` 307-334): fetch the task, require status
`completed` (a state-rule Conflict otherwise), and issue an update request
that copies the fields of the task and sets `archived = true`. -/
def appArchiveTask (now id : Int) (db : List Task) :
    Except UCError (List Task × Task) :=
  match ucGetTaskByID id db with
  | .error e => .error e
  | .ok task =>
    if task.status != TaskStatus.completed then .error .conflictError
    else
      ucUpdateTask now
        { id := id, title := task.title, description := task.description,
          priority := some task.priority, dueDate := task.dueDate, archived := true }
        db

/-! ### Derived predicates and concrete fixtures -/

/-- The data-model invariant of the spec: `completed_at` is non-null iff the
status is `completed`. -/
def statusInv (t : Task) : Prop :=
  t.completedAt.isSome ↔ t.status = TaskStatus.completed

/-- A filter with every optional field empty (all Go zero values). -/
def zeroFilter : TaskFilter :=
  { status := none, priority := none, dateType := none, search := "",
    dueFrom := none, dueTo := none, archived := false }

/-- A valid filter (date-filter `all`) with no other constraints. -/
def allFilter : TaskFilter :=
  { zeroFilter with dateType := some DateFilter.all }

/-- Fixture: an active low-priority task. -/
def exLow : Task :=
  { id := 1, title := "a", description := "", status := TaskStatus.active,
    priority := Priority.low, dueDate := none, archived := false,
    createdAt := 10, updatedAt := 10, completedAt := none }

/-- Fixture: an active high-priority task. -/
def exHigh : Task :=
  { exLow with id := 2, priority := Priority.high, createdAt := 20, updatedAt := 20 }

/-- Fixture: an active medium-priority task. -/
def exMed : Task :=
  { exLow with id := 3, priority := Priority.medium, createdAt := 30, updatedAt := 30 }

/-- Fixture: a completed, unarchived task. -/
def exDone : Task :=
  { id := 1, title := "a", description := "", status := TaskStatus.completed,
    priority := Priority.medium, dueDate := none, archived := false,
    createdAt := 10, updatedAt := 10, completedAt := some 50 }

/-- Fixture: the task produced by creating
`{title := "a", priority := medium}` at time 1000 with id 7. -/
def exCreated : Task :=
  { id := 7, title := "a", description := "", status := TaskStatus.active,
    priority := Priority.medium, dueDate := none, archived := false,
    createdAt := 1000, updatedAt := 1000, completedAt := none }

end TodoApp

namespace TodoApp

/-! ### General lemmas about the embedded operations -/

theorem mem_insertLe (le : Task → Task → Bool) (x a : Task) :
    ∀ l : List Task, a ∈ insertLe le x l ↔ a = x ∨ a ∈ l
  | [] => by simp [insertLe]
  | y :: ys => by
    simp only [insertLe]
    split
    · simp
    · rw [List.mem_cons, mem_insertLe le x a ys, List.mem_cons]
      tauto

theorem mem_sortTasks (le : Task → Task → Bool) (a : Task) :
    ∀ l : List Task, a ∈ sortTasks le l ↔ a ∈ l
  | [] => Iff.rfl
  | x :: xs => by
    rw [sortTasks, mem_insertLe, mem_sortTasks le a xs, List.mem_cons]

theorem condsOfStatus_all_iff (now : Int) (t : Task) (o : Option TaskStatus) :
    (condsOfStatus o).all (evalCond now t) = true ↔
      ∀ st, o = some st → t.status = st := by
  cases o <;> simp [condsOfStatus, evalCond]

theorem condsOfPriority_all_iff (now : Int) (t : Task) (o : Option Priority) :
    (condsOfPriority o).all (evalCond now t) = true ↔
      ∀ p, o = some p → t.priority = p := by
  cases o <;> simp [condsOfPriority, evalCond]

theorem condsOfSearch_all_iff (now : Int) (t : Task) (s : String) :
    (condsOfSearch s).all (evalCond now t) = true ↔
      (s ≠ "" → (likeMatch s t.title = true ∨ likeMatch s t.description = true)) := by
  unfold condsOfSearch
  split
  · simp [evalCond]
    tauto
  · simp_all

theorem condsOfDate_all_iff (now : Int) (t : Task) (o : Option DateFilter) :
    (condsOfDate o).all (evalCond now t) = true ↔
      ((o = some DateFilter.today → ∃ d, t.dueDate = some d ∧ dayOf d = dayOf now) ∧
       (o = some DateFilter.week → ∃ d, t.dueDate = some d ∧ now ≤ d ∧ d ≤ now + 7 * oneDay) ∧
       (o = some DateFilter.overdue →
          t.status = TaskStatus.active ∧ ∃ d, t.dueDate = some d ∧ d < now)) := by
  rcases o with _ | fd
  · simp [condsOfDate]
  · cases fd <;> cases htd : t.dueDate <;>
      simp [condsOfDate, evalCond, htd, and_assoc]

theorem condsOfFrom_all_iff (now : Int) (t : Task) (o : Option Int) :
    (condsOfFrom o).all (evalCond now t) = true ↔
      ∀ a, o = some a → ∃ d, t.dueDate = some d ∧ a ≤ d := by
  cases o <;> cases htd : t.dueDate <;> simp [condsOfFrom, evalCond, htd]

theorem condsOfTo_all_iff (now : Int) (t : Task) (o : Option Int) :
    (condsOfTo o).all (evalCond now t) = true ↔
      ∀ b, o = some b → ∃ d, t.dueDate = some d ∧ d ≤ b := by
  cases o <;> cases htd : t.dueDate <;> simp [condsOfTo, evalCond, htd]

theorem matchesWhere_true_iff (now : Int) (f : TaskFilter) (t : Task) :
    matchesWhere now f t = true ↔
      ((∀ st, f.status = some st → t.status = st) ∧
       (∀ p, f.priority = some p → t.priority = p) ∧
       (f.search ≠ "" → (likeMatch f.search t.title = true ∨ likeMatch f.search t.description = true)) ∧
       (f.dateType = some DateFilter.today → ∃ d, t.dueDate = some d ∧ dayOf d = dayOf now) ∧
       (f.dateType = some DateFilter.week → ∃ d, t.dueDate = some d ∧ now ≤ d ∧ d ≤ now + 7 * oneDay) ∧
       (f.dateType = some DateFilter.overdue →
          t.status = TaskStatus.active ∧ ∃ d, t.dueDate = some d ∧ d < now) ∧
       (∀ a, f.dueFrom = some a → ∃ d, t.dueDate = some d ∧ a ≤ d) ∧
       (∀ b, f.dueTo = some b → ∃ d, t.dueDate = some d ∧ d ≤ b)) := by
  unfold matchesWhere buildWhereClause
  simp only [List.all_append, Bool.and_eq_true]
  rw [condsOfStatus_all_iff, condsOfPriority_all_iff, condsOfSearch_all_iff,
    condsOfDate_all_iff, condsOfFrom_all_iff, condsOfTo_all_iff]
  tauto

theorem serviceGetTaskByID_ok_iff (id : Int) (db : List Task) (t : Task) :
    serviceGetTaskByID id db = Except.ok t ↔ (0 < id ∧ repoGetByID id db = some t) := by
  unfold serviceGetTaskByID validateID
  by_cases h : 0 < id
  · cases hg : repoGetByID id db <;> simp [h, hg]
  · simp [h]

theorem dueBefore_mono (now : Int) (o : Option Int)
    (h : dueBefore now o = false) : dueBefore (now - oneDay) o = false := by
  cases o with
  | none => rfl
  | some d =>
    simp only [dueBefore, decide_eq_false_iff_not, not_lt, oneDay] at h ⊢
    omega

theorem validateUpdate_parts (now : Int) (r : UpdateTaskRequest)
    (h : validateUpdateTaskRequest now r = true) :
    structValidUpdate r = true ∧ dueBefore now r.dueDate = false := by
  unfold validateUpdateTaskRequest at h
  rw [Bool.and_eq_true] at h
  exact ⟨h.1, by simpa using h.2⟩

theorem validateCreate_parts (now : Int) (r : CreateTaskRequest)
    (h : validateCreateTaskRequest now r = true) :
    structValidCreate r = true ∧ dueBefore now r.dueDate = false := by
  unfold validateCreateTaskRequest at h
  rw [Bool.and_eq_true] at h
  exact ⟨h.1, by simpa using h.2⟩

theorem repoUpdate_isOk (now : Int) (u : Task) (db : List Task)
    (t : Task) (ht : t ∈ db) (hid : t.id = u.id) :
    ∃ r, repoUpdate now u db = some r := by
  unfold repoUpdate
  have hs : (db.find? (fun x => x.id == u.id)).isSome := by
    rw [List.find?_isSome]
    exact ⟨t, ht, by simp [hid]⟩
  simp [hs]

theorem serviceUpdateTask_isOk (now : Int) (req : UpdateTaskRequest) (db : List Task)
    (t : Task) (hval : validateUpdateTaskRequest now req = true)
    (hfind : repoGetByID req.id db = some t) :
    ∃ r, serviceUpdateTask now req db = Except.ok r := by
  have hmem : t ∈ db := List.mem_of_find?_eq_some hfind
  unfold serviceUpdateTask
  rw [hval]
  simp only [Bool.not_true, Bool.false_eq_true, if_false, hfind]
  obtain ⟨r, hr⟩ :=
    repoUpdate_isOk now
      { t with title := req.title, description := req.description,
               priority := req.priority.getD Priority.medium,
               dueDate := req.dueDate, updatedAt := now } db t hmem rfl
  rw [hr]
  exact ⟨r, rfl⟩

theorem repoGetByID_some (id : Int) (db : List Task) (t : Task)
    (h : repoGetByID id db = some t) : t ∈ db ∧ t.id = id := by
  unfold repoGetByID at h
  exact ⟨List.mem_of_find?_eq_some h, by simpa using List.find?_some h⟩

theorem repoMarkAsCompleted_rows (now id : Int) (db db' : List Task)
    (h : repoMarkAsCompleted now id db = some db') :
    ∀ t' ∈ db',
      (t'.id = id → t'.status = TaskStatus.completed ∧ t'.completedAt = some now) ∧
      (t'.id ≠ id → t' ∈ db) := by
  unfold repoMarkAsCompleted at h
  split at h
  · injection h with h
    subst h
    intro t' ht'
    obtain ⟨t0, ht0, rfl⟩ := List.mem_map.mp ht'
    by_cases hid : t0.id = id
    · simp [hid]
    · simp [hid, ht0]
  · cases h

theorem repoMarkAsActive_rows (now id : Int) (db db' : List Task)
    (h : repoMarkAsActive now id db = some db') :
    ∀ t' ∈ db',
      (t'.id = id → t'.status = TaskStatus.active ∧ t'.completedAt = none) ∧
      (t'.id ≠ id → t' ∈ db) := by
  unfold repoMarkAsActive at h
  split at h
  · injection h with h
    subst h
    intro t' ht'
    obtain ⟨t0, ht0, rfl⟩ := List.mem_map.mp ht'
    by_cases hid : t0.id = id
    · simp [hid]
    · simp [hid, ht0]
  · cases h

theorem repoUpdate_rows (now : Int) (u : Task) (db : List Task)
    (r : List Task × Task) (h : repoUpdate now u db = some r) :
    ∀ t' ∈ r.1, ∃ t0 ∈ db,
      t'.id = t0.id ∧ t'.status = t0.status ∧ t'.completedAt = t0.completedAt ∧
      t'.archived = t0.archived := by
  unfold repoUpdate at h
  split at h
  · injection h with h
    subst h
    intro t' ht'
    obtain ⟨t0, ht0, rfl⟩ := List.mem_map.mp ht'
    by_cases hid : t0.id = u.id
    · exact ⟨t0, ht0, by simp [hid]⟩
    · exact ⟨t0, ht0, by simp [hid]⟩
  · cases h

theorem serviceToggleTaskStatus_ok_cases (now id : Int) (db : List Task)
    (r : List Task × Task) (h : serviceToggleTaskStatus now id db = Except.ok r) :
    ∃ t, repoGetByID id db = some t ∧
      ((t.status = TaskStatus.active ∧ repoMarkAsCompleted now id db = some r.1) ∨
       (t.status ≠ TaskStatus.active ∧ repoMarkAsActive now id db = some r.1)) ∧
      repoGetByID id r.1 = some r.2 := by
  unfold serviceToggleTaskStatus at h
  split at h
  · cases h
  · split at h
    · cases h
    · rename_i t hgb
      by_cases hst : t.status = TaskStatus.active
      · simp only [hst, beq_self_eq_true, if_true] at h
        split at h
        · cases h
        · rename_i db1 hmc
          split at h
          · rename_i t2 hg2
            injection h with h
            subst h
            exact ⟨t, hgb, Or.inl ⟨hst, hmc⟩, hg2⟩
          · cases h
      · have hbe : (t.status == TaskStatus.active) = false := by
          simpa using hst
        simp only [hbe, Bool.false_eq_true, if_false] at h
        split at h
        · cases h
        · rename_i db1 hma
          split at h
          · rename_i t2 hg2
            injection h with h
            subst h
            exact ⟨t, hgb, Or.inr ⟨hst, hma⟩, hg2⟩
          · cases h

/-! ### Claim theorems -/

/-- Claim C1: the spec says sorting by priority ascending returns severity
order low, medium, high and descending returns high, medium, low. The code
maps high to the smallest CASE key (1) and low to the largest (3), so the
directions come out reversed: on tasks with priorities [low, high, medium],
descending yields [low, medium, high] and ascending yields
[high, medium, low]. This contradicts the comment the code itself carries at the only
internal call site of a priority sort (`GetTasksByPriority` requests `desc`
expecting high priority first). -/
theorem prioritySortDirectionReversed :
    repoGetAll 0 zeroFilter { field := some SortField.priority, order := some SortOrder.desc }
        [exLow, exHigh, exMed] = [exLow, exMed, exHigh] ∧
    repoGetAll 0 zeroFilter { field := some SortField.priority, order := some SortOrder.asc }
        [exLow, exHigh, exMed] = [exHigh, exMed, exLow] := ⟨rfl, rfl⟩

/-- Claim C3: `GetDashboardStats` initializes the status and priority
breakdown maps with every enum key at 0 but never increments them from any
task data. On a store holding one completed task, the aggregate stats report
one completed task, yet the status breakdown still maps `completed` to 0 —
contradicting the specified `status_breakdown["completed"] >= 1`. -/
theorem dashboardBreakdownsNeverCounted :
    (serviceGetDashboardStats 1000 [exDone]).taskStats.completedTasks = 1 ∧
    List.lookup TaskStatus.completed
        (serviceGetDashboardStats 1000 [exDone]).statusBreakdown = some 0 ∧
    List.lookup Priority.medium
        (serviceGetDashboardStats 1000 [exDone]).priorityBreakdown = some 0 := ⟨rfl, rfl, rfl⟩

/-- Claim C4: archiving a completed task succeeds, but the stored row still
has `archived = false`: the service update copies only
title/description/priority/due_date, and the repository UPDATE statement
never writes the `archived` column, so the `Archived: true` of the request
is dropped and a subsequent `getByID` sees an unarchived task. -/
theorem archiveTaskDoesNotPersistArchivedFlag :
    appArchiveTask 1000 1 [exDone] =
        Except.ok ([{ exDone with updatedAt := 1000 }], { exDone with updatedAt := 1000 }) ∧
    repoGetByID 1 [{ exDone with updatedAt := 1000 }] = some { exDone with updatedAt := 1000 } ∧
    ({ exDone with updatedAt := 1000 } : Task).archived = false := ⟨rfl, rfl, rfl⟩

/-- Claim C5 counterexample: a creation request whose due date is one hour
in the past — well inside the claimed one-day grace window — is rejected
with a validation error, because `ValidateCreateTaskRequest` refuses any due
date strictly before `time.Now()` before the use-case one-day check can
run. -/
theorem pastDueDateWithinGraceRejected :
    ucCreateTask 1000000 7
        { title := "a", description := "", priority := some Priority.medium,
          dueDate := some 996400 } [] = Except.error UCError.validationError := rfl

/-- Claim C5 (amended): for otherwise-valid create and update requests that
supply a due date, both operations fail with a ValidationError exactly when
the due date is strictly before the current time, and succeed when it is at
or after the current time: the validator rejects every past due date, so the
use-case one-day-grace check is unreachable and no grace window is
observable. -/
theorem dueDateRejectedIffBeforeNow
    (now newId : Int) (req : CreateTaskRequest) (ureq : UpdateTaskRequest)
    (db : List Task) (d : Int) (t : Task)
    (hcd : req.dueDate = some d) (hcs : structValidCreate req = true)
    (hud : ureq.dueDate = some d) (hus : structValidUpdate ureq = true)
    (hget : serviceGetTaskByID ureq.id db = Except.ok t)
    (hnc : t.status = TaskStatus.completed →
      (ureq.title = t.title ∧ ureq.priority = some t.priority)) :
    (d < now →
       ucCreateTask now newId req db = Except.error UCError.validationError ∧
       ucUpdateTask now ureq db = Except.error UCError.validationError) ∧
    (now ≤ d →
       (∃ r, ucCreateTask now newId req db = Except.ok r) ∧
       (∃ r, ucUpdateTask now ureq db = Except.ok r)) := by
  constructor
  · intro hlt
    have hvc : validateCreateTaskRequest now req = false := by
      simp [validateCreateTaskRequest, hcd, dueBefore, hlt]
    have hvu : validateUpdateTaskRequest now ureq = false := by
      simp [validateUpdateTaskRequest, hud, dueBefore, hlt]
    constructor
    · unfold ucCreateTask
      simp [hvc]
    · unfold ucUpdateTask
      simp [hvu]
  · intro hle
    have hvc : validateCreateTaskRequest now req = true := by
      simp [validateCreateTaskRequest, hcs, hcd, dueBefore, not_lt.mpr hle]
    have hvu : validateUpdateTaskRequest now ureq = true := by
      simp [validateUpdateTaskRequest, hus, hud, dueBefore, not_lt.mpr hle]
    have hng : dueBefore (now - oneDay) req.dueDate = false :=
      dueBefore_mono now req.dueDate (validateCreate_parts now req hvc).2
    have hngu : dueBefore (now - oneDay) ureq.dueDate = false :=
      dueBefore_mono now ureq.dueDate (validateUpdate_parts now ureq hvu).2
    constructor
    · have hpn : req.priority.isNone = false := by
        unfold structValidCreate at hcs
        cases hpp : req.priority <;> simp_all
      unfold ucCreateTask
      rw [hvc]
      simp only [Bool.not_true, Bool.false_eq_true, if_false, hng, hpn,
        serviceCreateTask, hvc]
      exact ⟨_, rfl⟩
    · have hfind : repoGetByID ureq.id db = some t :=
        ((serviceGetTaskByID_ok_iff ureq.id db t).mp hget).2
      have hcond : (t.status == TaskStatus.completed &&
          (ureq.title != t.title || ureq.priority != some t.priority)) = false := by
        by_cases hst : t.status = TaskStatus.completed
        · obtain ⟨e1, e2⟩ := hnc hst
          simp [e1, e2]
        · simp [hst]
      obtain ⟨r, hr⟩ := serviceUpdateTask_isOk now ureq db t hvu hfind
      refine ⟨r, ?_⟩
      unfold ucUpdateTask
      rw [hvu]
      simp only [Bool.not_true, Bool.false_eq_true, if_false, hget, hngu, hcond, hr]

/-- Witness for the amended C5: a due date one thousand seconds in the past
makes both the create and the update request fail with a ValidationError. -/
theorem dueDateRejectedIffBeforeNowWitness :
    ucCreateTask 1000000 7
        { title := "a", description := "", priority := some Priority.medium,
          dueDate := some 999000 } [exDone] = Except.error UCError.validationError ∧
    ucUpdateTask 1000000
        { id := 1, title := "a", description := "", priority := some Priority.medium,
          dueDate := some 999000, archived := false } [exDone] =
      Except.error UCError.validationError :=
  (dueDateRejectedIffBeforeNow 1000000 7
      { title := "a", description := "", priority := some Priority.medium,
        dueDate := some 999000 }
      { id := 1, title := "a", description := "", priority := some Priority.medium,
        dueDate := some 999000, archived := false }
      [exDone] 999000 exDone rfl rfl rfl rfl rfl (fun _ => ⟨rfl, rfl⟩)).1
    (by decide)

/-- Claim C6: a creation request with an empty priority is rejected by the
`oneof=low medium high` struct tag (which has no `omitempty`), so the
use-case and service substitutions of `medium` are unreachable; the same
request with priority `medium` spelled out succeeds. -/
theorem emptyPriorityCreateRejected :
    ucCreateTask 1000 1
        { title := "Buy milk", description := "", priority := none, dueDate := none }
        [] = Except.error UCError.validationError ∧
    (ucCreateTask 1000 1
        { title := "Buy milk", description := "", priority := some Priority.medium,
          dueDate := none } []).isOk = true := ⟨rfl, rfl⟩

/-- Claim C7: a task appears in `getAll(F, sort)` iff it is stored and
satisfies every individual predicate generated from the non-empty fields of
F — exact status, exact priority, case-insensitive substring search over
title or description, the date-filter mode, and the inclusive due-date
bounds — combined conjunctively. -/
theorem getAllFilterConjunction (now : Int) (f : TaskFilter) (s : TaskSort)
    (db : List Task) (t : Task) :
    t ∈ repoGetAll now f s db ↔
      (t ∈ db ∧
       (∀ st, f.status = some st → t.status = st) ∧
       (∀ p, f.priority = some p → t.priority = p) ∧
       (f.search ≠ "" → (likeMatch f.search t.title = true ∨ likeMatch f.search t.description = true)) ∧
       (f.dateType = some DateFilter.today → ∃ d, t.dueDate = some d ∧ dayOf d = dayOf now) ∧
       (f.dateType = some DateFilter.week → ∃ d, t.dueDate = some d ∧ now ≤ d ∧ d ≤ now + 7 * oneDay) ∧
       (f.dateType = some DateFilter.overdue →
          t.status = TaskStatus.active ∧ ∃ d, t.dueDate = some d ∧ d < now) ∧
       (∀ a, f.dueFrom = some a → ∃ d, t.dueDate = some d ∧ a ≤ d) ∧
       (∀ b, f.dueTo = some b → ∃ d, t.dueDate = some d ∧ d ≤ b)) := by
  unfold repoGetAll
  rw [mem_sortTasks, List.mem_filter, matchesWhere_true_iff]

/-- Claim C2: on an existing completed task, a valid update request that
changes the title or the priority is rejected with the Conflict error before
the service/storage update runs, while the same request keeping title and
priority (so changing at most description, due date or archived) reaches the
storage update and succeeds. -/
theorem completedTaskUpdateConflict
    (now : Int) (req : UpdateTaskRequest) (db : List Task) (t : Task)
    (hval : validateUpdateTaskRequest now req = true)
    (hget : serviceGetTaskByID req.id db = Except.ok t)
    (hcomp : t.status = TaskStatus.completed) :
    ((req.title ≠ t.title ∨ req.priority ≠ some t.priority) →
        ucUpdateTask now req db = Except.error UCError.conflictError) ∧
    ((req.title = t.title ∧ req.priority = some t.priority) →
        ∃ r, ucUpdateTask now req db = Except.ok r) := by
  have hng : dueBefore (now - oneDay) req.dueDate = false :=
    dueBefore_mono now req.dueDate (validateUpdate_parts now req hval).2
  have hfind : repoGetByID req.id db = some t :=
    ((serviceGetTaskByID_ok_iff req.id db t).mp hget).2
  constructor
  · intro hdiff
    have hcond : (t.status == TaskStatus.completed &&
        (req.title != t.title || req.priority != some t.priority)) = true := by
      rcases hdiff with h | h <;> simp [hcomp, h]
    unfold ucUpdateTask
    rw [hval]
    simp only [Bool.not_true, Bool.false_eq_true, if_false, hget, hng, hcond, if_true]
  · rintro ⟨h1, h2⟩
    have hcond : (t.status == TaskStatus.completed &&
        (req.title != t.title || req.priority != some t.priority)) = false := by
      simp [h1, h2]
    obtain ⟨r, hr⟩ := serviceUpdateTask_isOk now req db t hval hfind
    refine ⟨r, ?_⟩
    unfold ucUpdateTask
    rw [hval]
    simp only [Bool.not_true, Bool.false_eq_true, if_false, hget, hng, hcond, hr]

/-- Witness for C2 at a concrete store: a completed task with id 1; a
request changing the title conflicts, and the same request keeping title and
priority while changing the description succeeds. -/
theorem completedTaskUpdateConflictWitness :
    ucUpdateTask 1000
        { id := 1, title := "b", description := "", priority := some Priority.medium,
          dueDate := none, archived := false } [exDone] =
      Except.error UCError.conflictError ∧
    (∃ r, ucUpdateTask 1000
        { id := 1, title := "a", description := "x", priority := some Priority.medium,
          dueDate := none, archived := false } [exDone] = Except.ok r) := by
  constructor
  · exact (completedTaskUpdateConflict 1000
      { id := 1, title := "b", description := "", priority := some Priority.medium,
        dueDate := none, archived := false } [exDone] exDone rfl rfl rfl).1
      (Or.inl (by decide))
  · exact (completedTaskUpdateConflict 1000
      { id := 1, title := "a", description := "x", priority := some Priority.medium,
        dueDate := none, archived := false } [exDone] exDone rfl rfl rfl).2
      ⟨rfl, rfl⟩

/-- Claim C8: after any core mutation, `completed_at` is non-null iff the
status is `completed`: creation yields an active task with null
`completed_at`; `MarkAsCompleted` writes status completed with
`completed_at = now` and `MarkAsActive` writes status active with
`completed_at = NULL` (rows of other ids are untouched); the repository
update writes neither status nor `completed_at`; and the toggle operation
preserves the invariant across the whole store and on the task it returns. -/
theorem completedAtIffStatusCompleted
    (now newId id : Int) (req : CreateTaskRequest) (u : Task) (db : List Task) :
    (∀ p, serviceCreateTask now newId req db = Except.ok p →
        p.2.status = TaskStatus.active ∧ p.2.completedAt = none ∧ p.1 = db ++ [p.2]) ∧
    (∀ db', repoMarkAsCompleted now id db = some db' → ∀ t' ∈ db',
        (t'.id = id → t'.status = TaskStatus.completed ∧ t'.completedAt = some now) ∧
        (t'.id ≠ id → t' ∈ db)) ∧
    (∀ db', repoMarkAsActive now id db = some db' → ∀ t' ∈ db',
        (t'.id = id → t'.status = TaskStatus.active ∧ t'.completedAt = none) ∧
        (t'.id ≠ id → t' ∈ db)) ∧
    (∀ r, repoUpdate now u db = some r → ∀ t' ∈ r.1, ∃ t0 ∈ db,
        t'.id = t0.id ∧ t'.status = t0.status ∧ t'.completedAt = t0.completedAt) ∧
    ((∀ v ∈ db, statusInv v) → ∀ r, serviceToggleTaskStatus now id db = Except.ok r →
        (∀ v ∈ r.1, statusInv v) ∧ statusInv r.2) := by
  refine ⟨?_, ?_, ?_, ?_, ?_⟩
  · intro p hp
    unfold serviceCreateTask at hp
    split at hp
    · cases hp
    · injection hp with hp
      subst hp
      exact ⟨rfl, rfl, rfl⟩
  · intro db' h
    exact repoMarkAsCompleted_rows now id db db' h
  · intro db' h
    exact repoMarkAsActive_rows now id db db' h
  · intro r h t' ht'
    obtain ⟨t0, ht0, h1, h2, h3, _⟩ := repoUpdate_rows now u db r h t' ht'
    exact ⟨t0, ht0, h1, h2, h3⟩
  · intro hinv r h
    obtain ⟨t, _, hbranch, hret⟩ := serviceToggleTaskStatus_ok_cases now id db r h
    have hall : ∀ v ∈ r.1, statusInv v := by
      intro v hv
      rcases hbranch with ⟨_, hmc⟩ | ⟨_, hma⟩
      · rcases repoMarkAsCompleted_rows now id db r.1 hmc v hv with ⟨hy, hn⟩
        by_cases hvid : v.id = id
        · obtain ⟨hs, hc⟩ := hy hvid
          simp [statusInv, hs, hc]
        · exact hinv v (hn hvid)
      · rcases repoMarkAsActive_rows now id db r.1 hma v hv with ⟨hy, hn⟩
        by_cases hvid : v.id = id
        · obtain ⟨hs, hc⟩ := hy hvid
          simp [statusInv, hs, hc]
        · exact hinv v (hn hvid)
    exact ⟨hall, hall r.2 (repoGetByID_some id r.1 r.2 hret).1⟩

/-- Witness for C8: creating `{title := "a", priority := medium}` at time
1000 on an empty store yields exactly the active task `exCreated` with null
`completed_at`, appended to the store. -/
theorem completedAtIffStatusCompletedWitness :
    exCreated.status = TaskStatus.active ∧ exCreated.completedAt = none ∧
      [exCreated] = ([] : List Task) ++ [exCreated] :=
  (completedAtIffStatusCompleted 1000 7 1
      { title := "a", description := "", priority := some Priority.medium, dueDate := none }
      exDone []).1 ([exCreated], exCreated) rfl

/-- Claim C9: pagination clamps the page to at least 1, replaces a page size
outside [1,100] with the default 20, fetches the full filtered and sorted
list, and returns exactly its slice `[(page-1)*pageSize, page*pageSize)`
together with the total count; a page past the end yields the empty list
with the correct total, not an error. -/
theorem paginationSlice (now : Int) (f : TaskFilter) (s : TaskSort)
    (page limit : Int) (db : List Task)
    (hf : validateTaskFilter f = true) (hs : validateTaskSort s = true) :
    ∃ r, ucGetTasksWithPagination now f s page limit db = Except.ok r ∧
      r.totalCount = ((repoGetAll now f s db).length : Int) ∧
      r.tasks =
        (((repoGetAll now f s db).take
            ((((if page < 1 then 1 else page) - 1) *
                (if limit < 1 || limit > 100 then 20 else limit) +
              (if limit < 1 || limit > 100 then 20 else limit)).toNat)).drop
          ((((if page < 1 then 1 else page) - 1) *
              (if limit < 1 || limit > 100 then 20 else limit)).toNat)).map (toResponse now) ∧
      ((((if page < 1 then 1 else page) - 1) *
          (if limit < 1 || limit > 100 then 20 else limit) ≥
            ((repoGetAll now f s db).length : Int)) → r.tasks = []) := by
  unfold ucGetTasksWithPagination
  rw [hf, hs]
  simp only [Bool.not_true, Bool.false_eq_true, if_false]
  set P : Int := if page < 1 then 1 else page with hP
  set L : Int := if limit < 1 || limit > 100 then 20 else limit with hL
  set allTasks : List Task := repoGetAll now f s db with hAll
  have hP1 : 1 ≤ P := by
    rw [hP]
    split <;> omega
  have hL1 : 1 ≤ L := by
    rw [hL]
    split
    · omega
    · rename_i hc
      simp only [Bool.or_eq_true, decide_eq_true_eq, not_or] at hc
      omega
  have hstart0 : 0 ≤ (P - 1) * L := mul_nonneg (by omega) (by omega)
  by_cases hb : (P - 1) * L ≥ (allTasks.length : Int)
  · rw [if_pos hb]
    refine ⟨_, rfl, rfl, ?_, fun _ => rfl⟩
    have hlen : allTasks.length ≤ ((P - 1) * L).toNat := by omega
    have hdrop :
        ((allTasks.take ((P - 1) * L + L).toNat).drop ((P - 1) * L).toNat) = [] :=
      List.drop_eq_nil_of_le (by
        rw [List.length_take]
        omega)
    rw [hdrop, List.map_nil]
  · rw [if_neg hb]
    refine ⟨_, rfl, rfl, ?_, fun hcon => absurd hcon hb⟩
    by_cases hc : (P - 1) * L + L > (allTasks.length : Int)
    · rw [if_pos hc]
      have h1 : allTasks.take ((allTasks.length : Int)).toNat = allTasks := by
        rw [Int.toNat_natCast]
        exact List.take_length allTasks
      have h2 : allTasks.take ((P - 1) * L + L).toNat = allTasks :=
        List.take_of_length_le (by omega)
      rw [h1, h2]
    · rw [if_neg hc]

/-- Witness for C9: on a store of three tasks with the trivial valid filter,
requesting page 2 with page size 2 returns exactly the last task with total
count 3, and (page 5, size 2) is past the end. -/
theorem paginationSliceWitness :
    ∃ r, ucGetTasksWithPagination 0 allFilter
        { field := some SortField.createdAt, order := some SortOrder.asc } 2 2
        [exLow, exHigh, exMed] = Except.ok r ∧
      r.totalCount = ((repoGetAll 0 allFilter
        { field := some SortField.createdAt, order := some SortOrder.asc }
        [exLow, exHigh, exMed]).length : Int) ∧
      r.tasks =
        (((repoGetAll 0 allFilter
            { field := some SortField.createdAt, order := some SortOrder.asc }
            [exLow, exHigh, exMed]).take ((((2 : Int) - 1) * 2 + 2).toNat)).drop
          ((((2 : Int) - 1) * 2).toNat)).map (toResponse 0) ∧
      ((((2 : Int) - 1) * 2 ≥ ((repoGetAll 0 allFilter
          { field := some SortField.createdAt, order := some SortOrder.asc }
          [exLow, exHigh, exMed]).length : Int)) → r.tasks = []) := by
  have h := paginationSlice 0 allFilter
    { field := some SortField.createdAt, order := some SortOrder.asc } 2 2
    [exLow, exHigh, exMed] rfl rfl
  simp only [show ¬((2 : Int) < 1) by omega, if_false,
    show ((2 : Int) < 1 || 2 > 100) = false by rfl] at h
  exact h

/-- Claim C10: the `Archived` field of a filter contributes no predicate in
`buildWhereClause`, so both `GetAll` and `GetTasksCount` return identical
results whether `Archived` is true or false. -/
theorem archivedFlagNoEffect (now : Int) (f : TaskFilter) (s : TaskSort) (db : List Task) :
    repoGetAll now { f with archived := true } s db =
        repoGetAll now { f with archived := false } s db ∧
    repoGetTasksCount now { f with archived := true } db =
        repoGetTasksCount now { f with archived := false } db := ⟨rfl, rfl⟩

end TodoApp
